import Mathlib

/-!
Verification development for the bertini2 (b2) adaptive-precision endgame core:
the AMP precision criteria of `tracking/amp_criteria.hpp` and the Hermite
extrapolation routine of `tracking/interpolation.hpp`, embedded shallowly over
an arbitrary linear ordered field (the code is generic over its `RealType` /
complex scalar type, with `log10`, the digit count `NumDigits()` and vector
norms supplied by external numeric traits, so they appear as parameters here).
-/

namespace B2

/-- Modelled from the spec: the `PrecisionConfig` record (the source file
`tracking_config.hpp` that declares `config::AdaptiveMultiplePrecisionConfig`
is not among the shown sources; the spec gives its fields as
`safety_digits_1 : int, safety_digits_2 : int, epsilon Phi Psi : real`). -/
structure AdaptiveMultiplePrecisionConfig (R : Type) where
  safety_digits_1 : ℤ
  safety_digits_2 : ℤ
  epsilon : R
  Phi : R
  Psi : R

variable {R : Type} [LinearOrderedField R]

/-- `amp::CriterionA` from `amp_criteria.hpp`:
`NumDigits() > safety_digits_1 + log10(norm_J_inverse * epsilon * (norm_J + Phi))`.
`log10` and the current digit count `numDigits` are the external numeric traits. -/
def CriterionA (log10 : R → R) (numDigits : ℕ) (norm_J norm_J_inverse : R)
    (AMP_config : AdaptiveMultiplePrecisionConfig R) : Bool :=
  decide ((numDigits : R) >
    (AMP_config.safety_digits_1 : R) +
      log10 (norm_J_inverse * AMP_config.epsilon * (norm_J + AMP_config.Phi)))

/-- The quantity `D` from `amp_criteria.hpp`:
`log10(norm_J_inverse*((2+epsilon)*norm_J + epsilon*Phi) + 1)`. -/
def D (log10 : R → R) (norm_J norm_J_inverse : R)
    (AMP_config : AdaptiveMultiplePrecisionConfig R) : R :=
  log10 (norm_J_inverse *
      ((2 + AMP_config.epsilon) * norm_J + AMP_config.epsilon * AMP_config.Phi) + 1)

/-- `amp::CriterionBRHS` from `amp_criteria.hpp`:
`safety_digits_1 + D + (-log10(tol) + log10(residual)) / num_newton_iterations_remaining`. -/
def CriterionBRHS (log10 : R → R) (norm_J norm_J_inverse : R)
    (num_newton_iterations_remaining : ℕ)
    (tracking_tolerance norm_of_latest_newton_residual : R)
    (AMP_config : AdaptiveMultiplePrecisionConfig R) : R :=
  (AMP_config.safety_digits_1 : R) + D log10 norm_J norm_J_inverse AMP_config +
    (-log10 tracking_tolerance + log10 norm_of_latest_newton_residual) /
      (num_newton_iterations_remaining : R)

/-- `amp::CriterionB` from `amp_criteria.hpp`: `NumDigits() > CriterionBRHS(...)`. -/
def CriterionB (log10 : R → R) (numDigits : ℕ) (norm_J norm_J_inverse : R)
    (num_newton_iterations_remaining : ℕ)
    (tracking_tolerance norm_of_latest_newton_residual : R)
    (AMP_config : AdaptiveMultiplePrecisionConfig R) : Bool :=
  decide ((numDigits : R) >
    CriterionBRHS log10 norm_J norm_J_inverse num_newton_iterations_remaining
      tracking_tolerance norm_of_latest_newton_residual AMP_config)

/-- `amp::CriterionCRHS` (scalar overload) from `amp_criteria.hpp`:
`safety_digits_2 + -log10(tol) + log10(norm_J_inverse*Psi + norm_z)`. -/
def CriterionCRHS (log10 : R → R) (norm_J_inverse norm_z tracking_tolerance : R)
    (AMP_config : AdaptiveMultiplePrecisionConfig R) : R :=
  (AMP_config.safety_digits_2 : R) + -log10 tracking_tolerance +
    log10 (norm_J_inverse * AMP_config.Psi + norm_z)

/-- `amp::CriterionC` from `amp_criteria.hpp`: the vector overload forwards
`z.norm()` (the external library's vector norm, here the parameter `vnorm`)
to the scalar `CriterionCRHS` and compares with the digit count. -/
def CriterionC {V : Type} (log10 : R → R) (vnorm : V → R) (numDigits : ℕ)
    (norm_J_inverse : R) (z : V) (tracking_tolerance : R)
    (AMP_config : AdaptiveMultiplePrecisionConfig R) : Bool :=
  decide ((numDigits : R) >
    CriterionCRHS log10 norm_J_inverse (vnorm z) tracking_tolerance AMP_config)

/-- Instrumented variant of `CriterionBRHS` making its single division explicit:
it returns `none` exactly when the divisor `num_newton_iterations_remaining`
(converted to `RealType`) is zero, i.e. when the unguarded division in the
source would actually divide by zero, and otherwise the computed value. -/
def CriterionBRHSchecked (log10 : R → R) (norm_J norm_J_inverse : R)
    (num_newton_iterations_remaining : ℕ)
    (tracking_tolerance norm_of_latest_newton_residual : R)
    (AMP_config : AdaptiveMultiplePrecisionConfig R) : Option R :=
  if ((num_newton_iterations_remaining : R)) = 0 then none
  else some (CriterionBRHS log10 norm_J norm_J_inverse num_newton_iterations_remaining
    tracking_tolerance norm_of_latest_newton_residual AMP_config)

/-- A concrete configuration used to instantiate hypotheses of the general
theorems at evaluable inputs. -/
def cfgEx : AdaptiveMultiplePrecisionConfig ℚ :=
  ⟨1, 1, 1, 1, 1⟩

/-! ### Hermite extrapolation (`interpolation.hpp`)

`HermiteInterpolateAndSolve` works on a `TimeCont` (deque) of complex times and
`SampCont`s (deques) of space vectors and derivatives, most recent sample last.
We embed the complex scalar type `CT` as an arbitrary field `K` and the space
vectors `Vec<CT>` as an arbitrary `K`-module `V` (the routine only adds,
subtracts, and multiplies/divides vectors by scalars); deques become lists.
Out-of-bounds container reads (undefined behavior in the source) are totalized
with default `0`; the in-bounds facts are settled separately. -/

variable {K : Type} [Field K] {V : Type} [AddCommGroup V] [Module K V]

/-- `times[times.size()-1-i]`: the `i`-th most recent sample time. -/
def timeNode (times : List K) (i : ℕ) : K :=
  times.getD (times.length - 1 - i) 0

/-- `samples[samples.size()-1-i]` (also used for the derivatives container). -/
def sampleNode (samples : List V) (i : ℕ) : V :=
  samples.getD (samples.length - 1 - i) 0

/-- The doubled-node time vector: `time_differences(2*ii) = time_differences(2*ii+1)
= times[num_provided_times-1-ii]`, i.e. slot `k` holds the `(k/2)`-th most recent time. -/
def timeDifferences (times : List K) (k : ℕ) : K :=
  timeNode times (k / 2)

/-- The divisor `time_differences(ii) - time_differences(ii-jj)` of the
divided-difference recurrence at table entry `(ii, jj)`. -/
def tableDenominator (times : List K) (ii jj : ℕ) : K :=
  timeDifferences times ii - timeDifferences times (ii - jj)

/-- Column 0 of the `space_differences` table: rows `2*ii` and `2*ii+1` are both
seeded with `samples[num_provided_samples-1-ii]`. -/
def sdCol0 (samples : List V) (i : ℕ) : V :=
  sampleNode samples (i / 2)

/-- Column 1 of the `space_differences` table: odd rows `2*ii+1` are seeded with
`derivatives[num_provided_derivs-1-ii]` (the doubled-node Hermite trick), and even
rows `2*ii` (for `ii ≥ 1`) get the first-order divided difference
`(F(2*ii,0) - F(2*ii-1,0)) / (td(2*ii) - td(2*ii-1))`.  Row 0 is never written
nor read by the source; it is junk here as well. -/
def sdCol1 (times : List K) (samples derivatives : List V) (i : ℕ) : V :=
  if i % 2 = 1 then sampleNode derivatives (i / 2)
  else (tableDenominator times i 1)⁻¹ • (sdCol0 samples i - sdCol0 samples (i - 1))

/-- The `space_differences` finite-difference table, indexed `(column, row)`:
`spaceDifferences times samples derivatives jj ii` is the entry the source calls
`space_differences(ii, jj)`.  Columns `jj ≥ 2` follow the generalized
divided-difference recurrence
`F(ii,jj) = (F(ii,jj-1) - F(ii-1,jj-1)) / (td(ii) - td(ii-jj))`. -/
def spaceDifferences (times : List K) (samples derivatives : List V) : ℕ → ℕ → V
  | 0, i => sdCol0 samples i
  | 1, i => sdCol1 times samples derivatives i
  | j + 2, i =>
      (tableDenominator times i (j + 2))⁻¹ •
        (spaceDifferences times samples derivatives (j + 1) i -
          spaceDifferences times samples derivatives (j + 1) (i - 1))

/-- The final loop of `HermiteInterpolateAndSolve`, building the result from the
highest term down: `hornerLoop … m r` runs the body for `ii = m, m-1, …, 1` with
accumulator `r`, each step being
`Result = (Result*(t - td(ii)) + F(2*ii,2*ii))*(t - td(ii-1)) + F(2*ii-1,2*ii-1)`. -/
def hornerLoop (target_time : K) (times : List K) (samples derivatives : List V) :
    ℕ → V → V
  | 0, r => r
  | m + 1, r =>
      hornerLoop target_time times samples derivatives m
        ((target_time - timeDifferences times m) •
            ((target_time - timeDifferences times (m + 1)) • r +
              spaceDifferences times samples derivatives (2 * (m + 1)) (2 * (m + 1))) +
          spaceDifferences times samples derivatives (2 * (m + 1) - 1) (2 * (m + 1) - 1))

/-- The row/column index `2*num_sample_points - 1` of the top-right diagonal entry
from which the final evaluation starts. -/
def diagIndex (num_sample_points : ℕ) : ℕ :=
  2 * num_sample_points - 1

/-- `bertini::tracking::HermiteInterpolateAndSolve` from `interpolation.hpp`:
seeds the doubled-node table, fills the divided differences, then evaluates from
the diagonal with the nested loop and returns
`Result*(target_time - td(0)) + F(0,0)`. -/
def HermiteInterpolateAndSolve (target_time : K) (num_sample_points : ℕ)
    (times : List K) (samples derivatives : List V) : V :=
  (target_time - timeDifferences times 0) •
      hornerLoop target_time times samples derivatives (num_sample_points - 1)
        (spaceDifferences times samples derivatives
          (diagIndex num_sample_points) (diagIndex num_sample_points)) +
    spaceDifferences times samples derivatives 0 0

/-- The `assert` conditions at the top of `HermiteInterpolateAndSolve`: each of
the three containers must hold at least `num_sample_points` entries. -/
def hermiteAsserts (num_sample_points : ℕ) (times : List K)
    (samples derivatives : List V) : Bool :=
  decide (times.length ≥ num_sample_points) &&
    decide (samples.length ≥ num_sample_points) &&
      decide (derivatives.length ≥ num_sample_points)

/-- C2: `CriterionA` returns true iff
`current_digits > safety_digits_1 + log10(norm_J_inverse * epsilon * (norm_J + Phi))`. -/
theorem criterionA_iff_spec (log10 : R → R) (numDigits : ℕ) (norm_J norm_J_inverse : R)
    (AMP_config : AdaptiveMultiplePrecisionConfig R) :
    CriterionA log10 numDigits norm_J norm_J_inverse AMP_config = true ↔
      (numDigits : R) >
        (AMP_config.safety_digits_1 : R) +
          log10 (norm_J_inverse * AMP_config.epsilon * (norm_J + AMP_config.Phi)) := by
  simp [CriterionA]

/-- C3: for `num_newton_iterations_remaining > 0`, `CriterionB` returns true iff
`current_digits > safety_digits_1 + D + (-log10(tol) + log10(residual)) / n`
with `D = log10(norm_J_inverse*((2+epsilon)*norm_J + epsilon*Phi) + 1)`. -/
theorem criterionB_iff_spec (log10 : R → R) (numDigits : ℕ) (norm_J norm_J_inverse : R)
    (num_newton_iterations_remaining : ℕ)
    (tracking_tolerance norm_of_latest_newton_residual : R)
    (AMP_config : AdaptiveMultiplePrecisionConfig R)
    (hn : 0 < num_newton_iterations_remaining) :
    CriterionB log10 numDigits norm_J norm_J_inverse num_newton_iterations_remaining
        tracking_tolerance norm_of_latest_newton_residual AMP_config = true ↔
      (numDigits : R) >
        (AMP_config.safety_digits_1 : R) +
          log10 (norm_J_inverse *
            ((2 + AMP_config.epsilon) * norm_J + AMP_config.epsilon * AMP_config.Phi) + 1) +
          (-log10 tracking_tolerance + log10 norm_of_latest_newton_residual) /
            (num_newton_iterations_remaining : R) := by
  simp [CriterionB, CriterionBRHS, D]

/-- Witness for C3 at concrete inputs. -/
theorem criterionB_iff_spec_witness :
    CriterionB (fun _ => (0 : ℚ)) 5 1 1 1 1 1 cfgEx = true ↔
      ((5 : ℕ) : ℚ) > ((cfgEx.safety_digits_1 : ℤ) : ℚ) +
        (fun _ => (0 : ℚ)) (1 * ((2 + cfgEx.epsilon) * 1 + cfgEx.epsilon * cfgEx.Phi) + 1) +
        (-(fun _ => (0 : ℚ)) 1 + (fun _ => (0 : ℚ)) 1) / ((1 : ℕ) : ℚ) :=
  criterionB_iff_spec (fun _ => (0 : ℚ)) 5 1 1 1 1 1 cfgEx (by decide)

/-- C4: `CriterionC` returns true iff
`current_digits > safety_digits_2 - log10(tracking_tolerance) + log10(norm_J_inverse * Psi + norm_z)`
where `norm_z` is the norm of the current point `z`. -/
theorem criterionC_iff_spec {V : Type} (log10 : R → R) (vnorm : V → R) (numDigits : ℕ)
    (norm_J_inverse : R) (z : V) (tracking_tolerance : R)
    (AMP_config : AdaptiveMultiplePrecisionConfig R) :
    CriterionC log10 vnorm numDigits norm_J_inverse z tracking_tolerance AMP_config = true ↔
      (numDigits : R) >
        (AMP_config.safety_digits_2 : R) - log10 tracking_tolerance +
          log10 (norm_J_inverse * AMP_config.Psi + vnorm z) := by
  simp [CriterionC, CriterionCRHS, sub_eq_add_neg, add_comm, add_left_comm, add_assoc]

/-- C5: with the digit count fixed and all else equal, each criterion is antitone
in the stated directions: increasing `norm_J` or `norm_J_inverse`, or decreasing
`tracking_tolerance`, never turns a false result into a true one — equivalently,
if the criterion holds at the harder (primed) inputs it holds at the easier ones.
`log10` is assumed monotone on the positives, and norms and constants positive. -/
theorem criteria_antitone {V : Type} (log10 : R → R) (vnorm : V → R)
    (hlog : MonotoneOn log10 (Set.Ioi (0 : R)))
    (numDigits : ℕ) (AMP_config : AdaptiveMultiplePrecisionConfig R)
    (heps : 0 < AMP_config.epsilon) (hPhi : 0 < AMP_config.Phi) (hPsi : 0 < AMP_config.Psi)
    (norm_J norm_J' norm_J_inverse norm_J_inverse' tol tol' res : R)
    (num_newton_iterations_remaining : ℕ) (hn : 0 < num_newton_iterations_remaining)
    (z : V) (hz : 0 ≤ vnorm z)
    (hJ0 : 0 < norm_J) (hJ : norm_J ≤ norm_J')
    (hJi0 : 0 < norm_J_inverse) (hJi : norm_J_inverse ≤ norm_J_inverse')
    (htol0 : 0 < tol') (htol : tol' ≤ tol) (hres : 0 < res) :
    (CriterionA log10 numDigits norm_J' norm_J_inverse' AMP_config = true →
      CriterionA log10 numDigits norm_J norm_J_inverse AMP_config = true) ∧
    (CriterionB log10 numDigits norm_J' norm_J_inverse'
        num_newton_iterations_remaining tol' res AMP_config = true →
      CriterionB log10 numDigits norm_J norm_J_inverse
        num_newton_iterations_remaining tol res AMP_config = true) ∧
    (CriterionC log10 vnorm numDigits norm_J_inverse' z tol' AMP_config = true →
      CriterionC log10 vnorm numDigits norm_J_inverse z tol AMP_config = true) := by
  have hJi0' : 0 < norm_J_inverse' := lt_of_lt_of_le hJi0 hJi
  have hJ0' : 0 < norm_J' := lt_of_lt_of_le hJ0 hJ
  have htol0' : 0 < tol := lt_of_lt_of_le htol0 htol
  have hlogtol : log10 tol' ≤ log10 tol :=
    hlog (Set.mem_Ioi.mpr htol0) (Set.mem_Ioi.mpr htol0') htol
  refine ⟨?_, ?_, ?_⟩
  · rw [CriterionA, decide_eq_true_iff, gt_iff_lt]
    rw [CriterionA, decide_eq_true_iff, gt_iff_lt]
    intro h
    have harg : norm_J_inverse * AMP_config.epsilon * (norm_J + AMP_config.Phi) ≤
        norm_J_inverse' * AMP_config.epsilon * (norm_J' + AMP_config.Phi) := by
      have h1 : norm_J + AMP_config.Phi ≤ norm_J' + AMP_config.Phi := by linarith
      have h2 : norm_J_inverse * AMP_config.epsilon ≤ norm_J_inverse' * AMP_config.epsilon :=
        mul_le_mul_of_nonneg_right hJi (le_of_lt heps)
      exact mul_le_mul h2 h1 (by positivity) (by positivity)
    have hl := hlog (Set.mem_Ioi.mpr (by positivity))
      (Set.mem_Ioi.mpr (by positivity)) harg
    linarith
  · rw [CriterionB, decide_eq_true_iff, gt_iff_lt]
    rw [CriterionB, decide_eq_true_iff, gt_iff_lt]
    unfold CriterionBRHS D
    intro h
    have hnR : (0 : R) < (num_newton_iterations_remaining : R) := by
      exact_mod_cast hn
    have harg : norm_J_inverse *
          ((2 + AMP_config.epsilon) * norm_J + AMP_config.epsilon * AMP_config.Phi) + 1 ≤
        norm_J_inverse' *
          ((2 + AMP_config.epsilon) * norm_J' + AMP_config.epsilon * AMP_config.Phi) + 1 := by
      have h1 : (2 + AMP_config.epsilon) * norm_J + AMP_config.epsilon * AMP_config.Phi ≤
          (2 + AMP_config.epsilon) * norm_J' + AMP_config.epsilon * AMP_config.Phi := by
        have := mul_le_mul_of_nonneg_left hJ (by linarith : (0 : R) ≤ 2 + AMP_config.epsilon)
        linarith
      have h2 := mul_le_mul hJi h1 (by positivity) (le_of_lt hJi0')
      linarith
    have hl := hlog (Set.mem_Ioi.mpr (by positivity))
      (Set.mem_Ioi.mpr (by positivity)) harg
    have hdiv : (-log10 tol + log10 res) / (num_newton_iterations_remaining : R) ≤
        (-log10 tol' + log10 res) / (num_newton_iterations_remaining : R) :=
      (div_le_div_iff_of_pos_right hnR).mpr (by linarith)
    linarith
  · rw [CriterionC, decide_eq_true_iff, gt_iff_lt]
    rw [CriterionC, decide_eq_true_iff, gt_iff_lt]
    unfold CriterionCRHS
    intro h
    have harg : norm_J_inverse * AMP_config.Psi + vnorm z ≤
        norm_J_inverse' * AMP_config.Psi + vnorm z := by
      have := mul_le_mul_of_nonneg_right hJi (le_of_lt hPsi)
      linarith
    have hl := hlog (Set.mem_Ioi.mpr (by positivity))
      (Set.mem_Ioi.mpr (by positivity)) harg
    linarith

/-- Witness for C5 at concrete inputs. -/
theorem criteria_antitone_witness :
    (CriterionA (fun _ => (0 : ℚ)) 5 2 2 cfgEx = true →
      CriterionA (fun _ => (0 : ℚ)) 5 1 1 cfgEx = true) ∧
    (CriterionB (fun _ => (0 : ℚ)) 5 2 2 1 1 1 cfgEx = true →
      CriterionB (fun _ => (0 : ℚ)) 5 1 1 1 2 1 cfgEx = true) ∧
    (CriterionC (fun _ => (0 : ℚ)) (fun _ => (1 : ℚ)) 5 2 (0 : ℚ) 1 cfgEx = true →
      CriterionC (fun _ => (0 : ℚ)) (fun _ => (1 : ℚ)) 5 1 (0 : ℚ) 2 cfgEx = true) :=
  criteria_antitone (fun _ => (0 : ℚ)) (fun _ => (1 : ℚ))
    (fun _ _ _ _ _ => le_refl 0) 5 cfgEx (by decide) (by decide) (by decide)
    1 2 1 2 2 1 1 1 (by decide) (0 : ℚ) (by decide)
    (by decide) (by decide) (by decide) (by decide) (by decide) (by decide) (by decide)

/-- C6: with `num_sample_points = 1`, the routine degenerates to first-order
Taylor extrapolation from the sample: `p + d * (target_time - t0)`. -/
theorem hermite_single_sample (target_time t0 : K) (p d : V) :
    HermiteInterpolateAndSolve target_time 1 [t0] [p] [d] =
      p + (target_time - t0) • d := by
  simp [HermiteInterpolateAndSolve, hornerLoop, diagIndex, spaceDifferences, sdCol1,
    sdCol0, sampleNode, timeDifferences, timeNode, add_comm]

/-- C7: three samples of `f(t) = t^2 + 1` (derivative `2t`) at times
`{0.1, 0.01, 0.001}`, extrapolated to `target_time = 0`, give a value within
`1e-6` of `1.0` (the value is exactly `1`). -/
theorem hermite_concrete_scenario :
    |HermiteInterpolateAndSolve (0 : ℚ) 3 [1/10, 1/100, 1/1000]
        ([101/100, 10001/10000, 1000001/1000000] : List ℚ) [1/5, 1/50, 1/500] - 1| ≤
      1/1000000 := by
  have h : HermiteInterpolateAndSolve (0 : ℚ) 3 [1/10, 1/100, 1/1000]
      ([101/100, 10001/10000, 1000001/1000000] : List ℚ) [1/5, 1/50, 1/500] = 1 := by
    norm_num [HermiteInterpolateAndSolve, hornerLoop, spaceDifferences, sdCol1, sdCol0,
      sampleNode, timeDifferences, timeNode, tableDenominator, diagIndex]
  rw [h]
  norm_num

/-- C1 fails on the code: for the degree-`3` polynomial `X^3` sampled exactly
(positions and derivatives) at the `n = 2` distinct times `2` and `1`
(`2n - 1 = 3`), the routine returns `1` at `target_time = 0`, while the
polynomial's value there — the value of the unique degree-3 Hermite
interpolant, which is `X^3` itself — is `0`: the final nested evaluation
indexes the doubled time vector with undoubled sample indices. -/
theorem hermite_cubic_code_value :
    ((Polynomial.X ^ 3 : Polynomial ℚ).eval 2 = 8 ∧
      (Polynomial.X ^ 3 : Polynomial ℚ).eval 1 = 1 ∧
      (Polynomial.derivative (Polynomial.X ^ 3 : Polynomial ℚ)).eval 2 = 12 ∧
      (Polynomial.derivative (Polynomial.X ^ 3 : Polynomial ℚ)).eval 1 = 3 ∧
      (Polynomial.X ^ 3 : Polynomial ℚ).eval 0 = 0) ∧
    HermiteInterpolateAndSolve (0 : ℚ) 2 [2, 1] ([8, 1] : List ℚ) [12, 3] = 1 := by
  constructor
  · norm_num [Polynomial.derivative_X_pow]
  · norm_num [HermiteInterpolateAndSolve, hornerLoop, spaceDifferences, sdCol1, sdCol0,
      sampleNode, timeDifferences, timeNode, tableDenominator, diagIndex]

/-- C8, amended with `num_sample_points ≥ 1`: under the precondition that each
container holds at least `num_sample_points` entries, the assertions pass, every
container read of the sampling loop is an in-bounds `get?`, and every table /
time-vector index used (seeding rows `2*ii`, `2*ii+1`; recurrence entries
`(ii, jj)` with `2 ≤ jj ≤ ii < 2n` reading slot `ii - jj`; the diagonal start
`2n-1`; the final loop's rows `2*ii`, `2*ii-1` for `1 ≤ ii ≤ n-1`) is below the
table dimension `2n`; with fewer entries in any container, an assertion fires. -/
theorem hermite_bounds (num_sample_points : ℕ) (times : List K)
    (samples derivatives : List V) (hn : 1 ≤ num_sample_points) :
    (hermiteAsserts num_sample_points times samples derivatives = true →
      (∀ ii < num_sample_points,
        times.get? (times.length - 1 - ii) = some (timeNode times ii) ∧
        samples.get? (samples.length - 1 - ii) = some (sampleNode samples ii) ∧
        derivatives.get? (derivatives.length - 1 - ii) = some (sampleNode derivatives ii) ∧
        2 * ii + 1 < 2 * num_sample_points) ∧
      (∀ ii jj, 2 ≤ jj → jj ≤ ii → ii < 2 * num_sample_points →
        ii - jj < 2 * num_sample_points) ∧
      diagIndex num_sample_points < 2 * num_sample_points ∧
      (∀ ii, 1 ≤ ii → ii ≤ num_sample_points - 1 →
        2 * ii < 2 * num_sample_points ∧ 2 * ii - 1 < 2 * num_sample_points)) ∧
    (times.length < num_sample_points ∨ samples.length < num_sample_points ∨
        derivatives.length < num_sample_points →
      hermiteAsserts num_sample_points times samples derivatives = false) := by
  constructor
  · intro hpre
    have h3 : num_sample_points ≤ times.length ∧ num_sample_points ≤ samples.length ∧
        num_sample_points ≤ derivatives.length := by
      simpa [hermiteAsserts, and_assoc] using hpre
    refine ⟨?_, by omega, by simp [diagIndex]; omega, by omega⟩
    intro ii hii
    have ht : times.length - 1 - ii < times.length := by omega
    have hs : samples.length - 1 - ii < samples.length := by omega
    have hd : derivatives.length - 1 - ii < derivatives.length := by omega
    refine ⟨?_, ?_, ?_, by omega⟩ <;>
      simp [timeNode, sampleNode, List.getD_eq_getElem?_getD,
        List.getElem?_eq_getElem, ht, hs, hd, List.get?_eq_getElem?]
  · intro hviol
    simp only [hermiteAsserts, Bool.and_eq_false_iff, decide_eq_false_iff_not, ge_iff_le,
      not_le]
    omega

/-- C8 counterexample to the claim as stated: at `num_sample_points = 0` the
assertions pass on empty containers, yet the index `2n - 1` of the diagonal
entry read unconditionally for `Result` is not within the `2n × 2n` table
(in the source the unsigned subtraction wraps around; the table is `0 × 0`). -/
theorem hermite_zero_window_counterexample :
    hermiteAsserts 0 ([] : List ℚ) ([] : List ℚ) ([] : List ℚ) = true ∧
      ¬ diagIndex 0 < 2 * 0 := by
  decide

/-- Witness for C8 at concrete inputs. -/
theorem hermite_bounds_witness :
    (hermiteAsserts 1 [(3 : ℚ)] ([(5 : ℚ)] : List ℚ) ([(7 : ℚ)] : List ℚ) = true →
      (∀ ii < 1,
        [(3 : ℚ)].get? ([(3 : ℚ)].length - 1 - ii) = some (timeNode [(3 : ℚ)] ii) ∧
        [(5 : ℚ)].get? ([(5 : ℚ)].length - 1 - ii) = some (sampleNode [(5 : ℚ)] ii) ∧
        [(7 : ℚ)].get? ([(7 : ℚ)].length - 1 - ii) = some (sampleNode [(7 : ℚ)] ii) ∧
        2 * ii + 1 < 2 * 1) ∧
      (∀ ii jj, 2 ≤ jj → jj ≤ ii → ii < 2 * 1 → ii - jj < 2 * 1) ∧
      diagIndex 1 < 2 * 1 ∧
      (∀ ii, 1 ≤ ii → ii ≤ 1 - 1 → 2 * ii < 2 * 1 ∧ 2 * ii - 1 < 2 * 1)) ∧
    ([(3 : ℚ)].length < 1 ∨ [(5 : ℚ)].length < 1 ∨ [(7 : ℚ)].length < 1 →
      hermiteAsserts 1 [(3 : ℚ)] ([(5 : ℚ)] : List ℚ) ([(7 : ℚ)] : List ℚ) = false) :=
  hermite_bounds 1 [(3 : ℚ)] ([(5 : ℚ)] : List ℚ) ([(7 : ℚ)] : List ℚ) (by decide)

/-- C9: the only division of `CriterionBRHS` (hence of `CriterionB`) has divisor
`num_newton_iterations_remaining` with no internal guard: for a positive count
the divisor is nonzero and the instrumented computation succeeds with the
plain value; at zero the division by zero actually occurs (the instrumented
computation reports it, nothing catches or retries it). -/
theorem criterionB_division (log10 : R → R) (norm_J norm_J_inverse : R)
    (num_newton_iterations_remaining : ℕ)
    (tracking_tolerance norm_of_latest_newton_residual : R)
    (AMP_config : AdaptiveMultiplePrecisionConfig R) :
    (0 < num_newton_iterations_remaining →
      (num_newton_iterations_remaining : R) ≠ 0 ∧
        CriterionBRHSchecked log10 norm_J norm_J_inverse num_newton_iterations_remaining
            tracking_tolerance norm_of_latest_newton_residual AMP_config =
          some (CriterionBRHS log10 norm_J norm_J_inverse num_newton_iterations_remaining
            tracking_tolerance norm_of_latest_newton_residual AMP_config)) ∧
    (num_newton_iterations_remaining = 0 →
      (num_newton_iterations_remaining : R) = 0 ∧
        CriterionBRHSchecked log10 norm_J norm_J_inverse num_newton_iterations_remaining
            tracking_tolerance norm_of_latest_newton_residual AMP_config = none) := by
  constructor
  · intro h
    have hne : (num_newton_iterations_remaining : R) ≠ 0 := by
      exact_mod_cast Nat.pos_iff_ne_zero.mp h
    exact ⟨hne, by simp [CriterionBRHSchecked, hne]⟩
  · intro h
    subst h
    exact ⟨by simp, by simp [CriterionBRHSchecked]⟩

/-- Witness for C9 at concrete inputs. -/
theorem criterionB_division_witness :
    ((1 : ℕ) : ℚ) ≠ 0 ∧
      CriterionBRHSchecked (fun _ => (0 : ℚ)) 1 1 1 1 1 cfgEx =
        some (CriterionBRHS (fun _ => (0 : ℚ)) 1 1 1 1 1 cfgEx) :=
  (criterionB_division (fun _ => (0 : ℚ)) 1 1 1 1 1 cfgEx).1 (by decide)

/-- C10: the `num_sample_points` most recent sample times must be pairwise
distinct.  If they are, every divisor the routine actually uses is nonzero:
the column-1 divisors at even rows `2*ii` (the odd rows take the derivative
seed instead of dividing — the doubled-node trick) and the recurrence divisors
at entries `(ii, jj)` with `2 ≤ jj ≤ ii < 2n`, whose two time slots `ii` and
`ii - jj` always hold distinct recorded times.  If instead two of those times
coincide, some computed entry's divisor is exactly zero. -/
theorem hermite_distinct_times (num_sample_points : ℕ) (times : List K) :
    ((∀ a b, a < num_sample_points → b < num_sample_points →
        timeNode times a = timeNode times b → a = b) →
      (∀ ii jj, 2 ≤ jj → jj ≤ ii → ii < 2 * num_sample_points →
        tableDenominator times ii jj ≠ 0) ∧
      (∀ ii, 1 ≤ ii → ii < num_sample_points →
        tableDenominator times (2 * ii) 1 ≠ 0)) ∧
    (∀ a b, a < b → b < num_sample_points → timeNode times a = timeNode times b →
      ∃ ii jj, 2 ≤ jj ∧ jj ≤ ii ∧ ii < 2 * num_sample_points ∧
        tableDenominator times ii jj = 0) := by
  constructor
  · intro hdist
    constructor
    · intro ii jj h2 hle hlt hzero
      unfold tableDenominator timeDifferences at hzero
      have heq := sub_eq_zero.mp hzero
      have := hdist (ii / 2) ((ii - jj) / 2) (by omega) (by omega) heq
      omega
    · intro ii h1 hlt hzero
      unfold tableDenominator timeDifferences at hzero
      have heq := sub_eq_zero.mp hzero
      have := hdist (2 * ii / 2) ((2 * ii - 1) / 2) (by omega) (by omega) heq
      omega
  · intro a b hab hbn heq
    refine ⟨2 * b, 2 * (b - a), by omega, by omega, by omega, ?_⟩
    unfold tableDenominator timeDifferences
    have h1 : 2 * b / 2 = b := by omega
    have h2 : (2 * b - 2 * (b - a)) / 2 = a := by omega
    rw [h1, h2, heq, sub_self]

/-- Witness for C10 at concrete inputs. -/
theorem hermite_distinct_times_witness :
    ∃ ii jj, 2 ≤ jj ∧ jj ≤ ii ∧ ii < 2 * 2 ∧
      tableDenominator [(5 : ℚ), 5] ii jj = 0 :=
  (hermite_distinct_times 2 [(5 : ℚ), 5]).2 0 1 (by decide) (by decide) (by decide)

end B2
